import Mathlib

/-!
Verification of the tangodb in-memory database core (`db_access/_abstract.py`,
`db_access/yaml.py`) against its natural-language specification.

The Python code is shallowly embedded: Python objects that matter for object
identity (dicts, lists, `Node`, `NodeList`) live in an explicit heap addressed
by `NodeId`, so that promotion caching and wrapper identity are observable.
Fallible Python code is modelled with `Except PyErr`.
-/

namespace PyTangoDB

/-! ## Python string primitives

`str.lower`, `str.split`, `str.replace` and `int()` are modelled for the ASCII
strings the database handles (Python's versions are Unicode-aware). -/

/-- ASCII `str.lower` on one character. -/
def lowerChar (c : Char) : Char :=
  if 'A' ≤ c && c ≤ 'Z' then Char.ofNat (c.toNat + 32) else c

/-- ASCII `str.lower`. -/
def pyLower (s : String) : String :=
  ⟨s.data.map lowerChar⟩

/-- `str.split("/")` on the underlying character list: `""` splits to `[""]`,
exactly as in Python. -/
def splitSlashAux : List Char → List Char → List String
  | [], acc => [⟨acc.reverse⟩]
  | c :: rest, acc =>
    if c = '/' then (⟨acc.reverse⟩ : String) :: splitSlashAux rest []
    else splitSlashAux rest (c :: acc)

/-- `s.split("/")`. -/
def pySplit (s : String) : List String :=
  splitSlashAux s.data []

/-- `s.replace("/", ".")` (used for the per-device attribute-property key). -/
def pyReplaceSlashDot (s : String) : String :=
  ⟨s.data.map (fun c => if c = '/' then '.' else c)⟩

/-- Decimal digits to a number; `none` on an empty list or a non-digit. -/
def digitsToNat : List Char → Option Nat
  | [] => Option.none
  | cs => go cs 0
where
  go : List Char → Nat → Option Nat
    | [], acc => some acc
    | c :: rest, acc =>
      if c.isDigit then go rest (acc * 10 + (c.toNat - 48)) else Option.none

/-- Python `int(s)` for a plain decimal literal with an optional sign;
`none` models the `ValueError`. -/
def pyInt? (s : String) : Option Int :=
  match s.data with
  | '-' :: rest => (digitsToNat rest).map (fun n => -(n : Int))
  | '+' :: rest => (digitsToNat rest).map (fun n => (n : Int))
  | cs => (digitsToNat cs).map (fun n => (n : Int))

/-! ## The wildcard matcher (`list_filter`)

The source compiles `pattern.replace("*", ".*")` as a regular expression with
`re.IGNORECASE` and keeps candidates accepted by `fullmatch`.  The embedding
gives the semantics of that regex fragment for patterns built from literal
characters, `*` and `.` only: `*` matches any character sequence and `.`
matches any single character.  Any OTHER regex metacharacter (`+`, `?`,
brackets, alternation, ...) keeps its regex meaning under `re.compile` but is
NOT modelled here, so every faithfulness theorem below hypothesises the
pattern free of `regexMeta` (with `*` always allowed, and `.` allowed where
only the code-side matcher is concerned). -/

/-- The characters Python's `re` treats specially.  `list_filter` hands them
to `re.compile` unescaped, so results about `list_filter` on patterns
containing them would not transfer to the source; `*` is excepted because the
source rewrites it to `.*` and the embedding models it. -/
def regexMeta : List Char :=
  ['.', '^', '$', '+', '?', Char.ofNat 123, Char.ofNat 125, '[', ']', '\\',
    '|', '(', ')']

/-- Full-string match of the compiled pattern against a candidate,
case-insensitively. -/
def globMatch : List Char → List Char → Bool
  | [], cs => cs.isEmpty
  | p :: ps, cs =>
    if p = '*' then cs.tails.any (fun suffix => globMatch ps suffix)
    else if p = '.' then
      match cs with
      | [] => false
      | _ :: cs' => globMatch ps cs'
    else
      match cs with
      | [] => false
      | c :: cs' => lowerChar p = lowerChar c && globMatch ps cs'

/-- `list_filter(pattern, l)`: keep the non-`None` candidates accepted by the
pattern, in their original order. -/
def list_filter (pattern : String) (l : List (Option String)) : List String :=
  l.filterMap fun x =>
    match x with
    | Option.none => Option.none
    | some s => if globMatch pattern.data s.data then some s else Option.none

/-- Heap addresses for Python container objects. -/
abbrev NodeId := Nat

/-- A Python value as stored in a slot: a scalar string, `None`, or a
reference to a container object in the heap. -/
inductive PyVal where
  | pynone
  | str (s : String)
  | ref (id : NodeId)
deriving DecidableEq, Repr

/-- A Python container object: a raw `dict`, a raw `list`, a `Node` wrapper
(ordered mapping plus fixed parent), or a `NodeList` wrapper. -/
inductive Obj where
  | rawMap (entries : List (String × PyVal))
  | rawList (elems : List PyVal)
  | node (entries : List (String × PyVal)) (parent : Option NodeId)
  | nodeList (elems : List PyVal) (parent : Option NodeId)
deriving DecidableEq, Repr

/-- Association-list lookup (Python `dict.get` / `dict.__getitem__` core). -/
def alookup {κ α : Type} [DecidableEq κ] : List (κ × α) → κ → Option α
  | [], _ => Option.none
  | (k, v) :: rest, key => if k = key then some v else alookup rest key

/-- Association-list store with `dict` semantics: an existing key keeps its
position, a new key is appended. -/
def aset {κ α : Type} [DecidableEq κ] : List (κ × α) → κ → α → List (κ × α)
  | [], key, v => [(key, v)]
  | (k, w) :: rest, key, v =>
    if k = key then (k, v) :: rest else (k, w) :: aset rest key v

/-- Association-list delete.  Lists built with `aset` have unique keys, so
removing every binding of the key is `dict.__delitem__`. -/
def adel {κ α : Type} [DecidableEq κ] (l : List (κ × α)) (key : κ) : List (κ × α) :=
  l.filter fun p => ¬(p.1 = key)

/-- The heap: allocated objects and the next fresh address. -/
structure Heap where
  objs : List (NodeId × Obj)
  next : NodeId
deriving DecidableEq, Repr

def Heap.find (h : Heap) (i : NodeId) : Option Obj :=
  alookup h.objs i

def Heap.set (h : Heap) (i : NodeId) (o : Obj) : Heap :=
  ⟨h.objs.map (fun p => if p.1 = i then (i, o) else p), h.next⟩

def Heap.alloc (h : Heap) (o : Obj) : NodeId × Heap :=
  (h.next, ⟨h.objs ++ [(h.next, o)], h.next + 1⟩)

/-- Every allocated address is below `next` (true of every heap built with
`Heap.alloc`, and preserved by `Heap.set`). -/
def Heap.WF (h : Heap) : Prop :=
  ∀ p ∈ h.objs, p.1 < h.next

instance (h : Heap) : Decidable h.WF :=
  inferInstanceAs (Decidable (∀ p ∈ h.objs, p.1 < h.next))

/-! ## Errors -/

/-- Exceptions the embedded code can raise.  `dbError` is
`tango.Except.throw_exception(reason, desc, origin)` (always raises); the
others are the plain Python exception classes. -/
inductive PyErr where
  | dbError (reason desc origin : String)
  | keyError
  | typeError
  | attributeError
  | valueError
  | indexError
deriving DecidableEq, Repr

/-! ## Node model (`yaml.Node`, `yaml.NodeList`)

`Node._patch` / `NodeList._patch` promote a raw dict or raw list to a
`Node`/`NodeList` with the given parent; a value that is already promoted (or
a scalar) is returned unchanged.  The promoting constructors copy the raw
container shallowly, exactly like `dict.update` / `list.extend`. -/

/-- `_patch(value)`: `some (value2, heap)` when a new wrapper was allocated
(Python `value is not value2`), `none` when the value is returned as-is. -/
def patchVal (h : Heap) (parent : Option NodeId) (v : PyVal) : Option (PyVal × Heap) :=
  match v with
  | .ref i =>
    match h.find i with
    | some (Obj.rawMap m) =>
      let (j, h') := h.alloc (Obj.node m parent)
      some (.ref j, h')
    | some (Obj.rawList xs) =>
      let (j, h') := h.alloc (Obj.nodeList xs parent)
      some (.ref j, h')
    | _ => Option.none
  | _ => Option.none

/-- `Node.get(key, default)` exactly as written in the source: the patched
wrapper is cached back into the dict when the key is present, but the RAW
`value` (not `value2`) is returned.  The receiver is always a `Node` in every
reachable call; the fallback returns the default. -/
def nodeGet (h : Heap) (i : NodeId) (key : String) (dflt : PyVal) : PyVal × Heap :=
  match h.find i with
  | some (Obj.node entries parent) =>
    let v := (alookup entries key).getD dflt
    match patchVal h (some i) v with
    | Option.none => (v, h)
    | some (v2, h') =>
      if (alookup entries key).isSome then
        (v, h'.set i (Obj.node (aset entries key v2) parent))
      else
        (v, h')
  | _ => (dflt, h)

/-- `Node.__getitem__(key)`: `KeyError` when absent; otherwise the patched
value is cached and returned. -/
def nodeGetItem (h : Heap) (i : NodeId) (key : String) : Except PyErr (PyVal × Heap) :=
  match h.find i with
  | some (Obj.node entries parent) =>
    match alookup entries key with
    | Option.none => .error .keyError
    | some v =>
      match patchVal h (some i) v with
      | Option.none => .ok (v, h)
      | some (v2, h') => .ok (v2, h'.set i (Obj.node (aset entries key v2) parent))
  | _ => .error .typeError

/-- `NodeList.__getitem__(i)`: the patched element is cached back into the
list and returned; the wrapper's parent is the LIST's parent
(`NodeList._patch` passes `parent=self.parent`). -/
def nodeListGetItem (h : Heap) (i : NodeId) (k : Nat) : Except PyErr (PyVal × Heap) :=
  match h.find i with
  | some (Obj.nodeList elems parent) =>
    match elems.get? k with
    | Option.none => .error .indexError
    | some v =>
      match patchVal h parent v with
      | Option.none => .ok (v, h)
      | some (v2, h') => .ok (v2, h'.set i (Obj.nodeList (elems.set k v2) parent))
  | _ => .error .typeError

/-- `x[key] = v` on a `Node` or a raw dict (both store without promotion). -/
def valSetItem (h : Heap) (v : PyVal) (key : String) (x : PyVal) : Except PyErr Heap :=
  match v with
  | .ref i =>
    match h.find i with
    | some (Obj.node entries parent) => .ok (h.set i (Obj.node (aset entries key x) parent))
    | some (Obj.rawMap entries) => .ok (h.set i (Obj.rawMap (aset entries key x)))
    | _ => .error .typeError
  | _ => .error .typeError

/-- `del x[key]` on a `Node` or raw dict; `KeyError` when absent. -/
def valDelItem (h : Heap) (v : PyVal) (key : String) : Except PyErr Heap :=
  match v with
  | .ref i =>
    match h.find i with
    | some (Obj.node entries parent) =>
      match alookup entries key with
      | Option.none => .error .keyError
      | some _ => .ok (h.set i (Obj.node (adel entries key) parent))
    | some (Obj.rawMap entries) =>
      match alookup entries key with
      | Option.none => .error .keyError
      | some _ => .ok (h.set i (Obj.rawMap (adel entries key)))
    | _ => .error .typeError
  | _ => .error .typeError

/-- `x.get(key, default)` dispatched on the runtime type of `x`: `Node.get`
with its caching (and its raw return value), plain `dict.get` on a raw dict,
`AttributeError` on anything else. -/
def valGet (h : Heap) (v : PyVal) (key : String) (dflt : PyVal) : Except PyErr (PyVal × Heap) :=
  match v with
  | .ref i =>
    match h.find i with
    | some (Obj.node _ _) => .ok (nodeGet h i key dflt)
    | some (Obj.rawMap entries) => .ok ((alookup entries key).getD dflt, h)
    | _ => .error .attributeError
  | _ => .error .attributeError

/-- `list(x.keys())` on a `Node` or raw dict. -/
def valKeys (h : Heap) (v : PyVal) : Except PyErr (List String) :=
  match v with
  | .ref i =>
    match h.find i with
    | some (Obj.node entries _) => .ok (entries.map Prod.fst)
    | some (Obj.rawMap entries) => .ok (entries.map Prod.fst)
    | _ => .error .attributeError
  | _ => .error .attributeError

/-- `x.save()`: a no-op hook on `Node`; anything else (in particular a raw
dict) has no `save` attribute. -/
def valSave (h : Heap) (v : PyVal) : Except PyErr Unit :=
  match v with
  | .ref i =>
    match h.find i with
    | some (Obj.node _ _) => .ok ()
    | _ => .error .attributeError
  | _ => .error .attributeError

/-- `x.clear()` on a `Node` (via `MutableMapping.clear`) or raw dict. -/
def valClear (h : Heap) (v : PyVal) : Except PyErr Heap :=
  match v with
  | .ref i =>
    match h.find i with
    | some (Obj.node _ parent) => .ok (h.set i (Obj.node [] parent))
    | some (Obj.rawMap _) => .ok (h.set i (Obj.rawMap []))
    | _ => .error .attributeError
  | _ => .error .attributeError

/-- `x.append(v)` on a raw list or `NodeList`. -/
def valAppend (h : Heap) (v : PyVal) (x : PyVal) : Except PyErr Heap :=
  match v with
  | .ref i =>
    match h.find i with
    | some (Obj.rawList xs) => .ok (h.set i (Obj.rawList (xs ++ [x])))
    | some (Obj.nodeList xs parent) => .ok (h.set i (Obj.nodeList (xs ++ [x]) parent))
    | _ => .error .attributeError
  | _ => .error .attributeError

/-- Remove the first occurrence of `x`; `none` models `list.remove`'s
`ValueError`.  Python compares with `==` (contents for mappings); the model
compares values, which for node references is object identity — the two
coincide whenever the list holds the node itself. -/
def removeFirst (xs : List PyVal) (x : PyVal) : Option (List PyVal) :=
  match xs with
  | [] => Option.none
  | y :: rest =>
    if y = x then some rest else (removeFirst rest x).map (fun r => y :: r)

/-- `x.remove(v)` on a raw list or `NodeList`. -/
def valRemove (h : Heap) (v : PyVal) (x : PyVal) : Except PyErr Heap :=
  match v with
  | .ref i =>
    match h.find i with
    | some (Obj.rawList xs) =>
      match removeFirst xs x with
      | Option.none => .error .valueError
      | some xs' => .ok (h.set i (Obj.rawList xs'))
    | some (Obj.nodeList xs parent) =>
      match removeFirst xs x with
      | Option.none => .error .valueError
      | some xs' => .ok (h.set i (Obj.nodeList xs' parent))
    | _ => .error .attributeError
  | _ => .error .attributeError

/-- `isinstance(x, MutableSequence)`. -/
def isSeq (h : Heap) (v : PyVal) : Bool :=
  match v with
  | .ref i =>
    match h.find i with
    | some (Obj.rawList _) => true
    | some (Obj.nodeList _ _) => true
    | _ => false
  | _ => false

/-- `str(x)` for the values the database formats: scalars and `None`.
Python would render a container's contents recursively; no operation settled
here formats a container, so a reference is rendered as a tag. -/
def pyStr (v : PyVal) : String :=
  match v with
  | .str s => s
  | .pynone => "None"
  | .ref i => "<object " ++ Nat.repr i ++ ">"

/-- Iterate a `NodeList` collecting `str(x)` of each element;
`NodeList.__iter__` goes through `__getitem__`, so elements are patched and
cached as they are visited. -/
def nodeListStrs (i : NodeId) : Nat → Nat → Heap → Except PyErr (List String × Heap)
  | 0, _, h => .ok ([], h)
  | c + 1, idx, h =>
    match nodeListGetItem h i idx with
    | .error e => .error e
    | .ok (v, h') =>
      match nodeListStrs i c (idx + 1) h' with
      | .error e => .error e
      | .ok (strs, h'') => .ok (pyStr v :: strs, h'')

/-- `[str(x) for x in values]` where `values` is a raw list (plain iteration)
or a `NodeList` (patching iteration). -/
def seqStrs (h : Heap) (v : PyVal) : Except PyErr (List String × Heap) :=
  match v with
  | .ref i =>
    match h.find i with
    | some (Obj.rawList xs) => .ok (xs.map pyStr, h)
    | some (Obj.nodeList xs _) => nodeListStrs i xs.length 0 h
    | _ => .error .typeError
  | _ => .error .typeError

/-- Iterate `for x in v` over a raw list (plain) or a `NodeList` (patching),
returning the elements in order. -/
def iterElemsList (i : NodeId) : Nat → Nat → Heap → Except PyErr (List PyVal × Heap)
  | 0, _, h => .ok ([], h)
  | c + 1, idx, h =>
    match nodeListGetItem h i idx with
    | .error e => .error e
    | .ok (v, h') =>
      match iterElemsList i c (idx + 1) h' with
      | .error e => .error e
      | .ok (vs, h'') => .ok (v :: vs, h'')

/-- Elements of an iterable value; `None` (and scalars) raise `TypeError`. -/
def iterElems (h : Heap) (v : PyVal) : Except PyErr (List PyVal × Heap) :=
  match v with
  | .ref i =>
    match h.find i with
    | some (Obj.rawList xs) => .ok (xs, h)
    | some (Obj.nodeList xs _) => iterElemsList i xs.length 0 h
    | _ => .error .typeError
  | _ => .error .typeError

/-- The key/value entries used by `Node(mapping)`'s copying constructor;
`dict.update` accepts a mapping (raw dict or `Node`) and fails otherwise. -/
def mapEntriesOf (h : Heap) (v : PyVal) : Except PyErr (List (String × PyVal)) :=
  match v with
  | .ref i =>
    match h.find i with
    | some (Obj.rawMap m) => .ok m
    | some (Obj.node m _) => .ok m
    | _ => .error .typeError
  | _ => .error .typeError

/-! ## Python list indexing and slicing -/

/-- `l[i]` with Python semantics: a negative index counts from the end,
out of range raises `IndexError`. -/
def pyListGet {α : Type} (l : List α) (i : Int) : Except PyErr α :=
  let j : Int := if i < 0 then (l.length : Int) + i else i
  if 0 ≤ j then
    match l.get? j.toNat with
    | some a => .ok a
    | Option.none => .error .indexError
  else .error .indexError

/-- `l[a:b]` with Python semantics (indices clamped, never raising). -/
def pySlice {α : Type} (l : List α) (a b : Int) : List α :=
  let n : Int := (l.length : Int)
  let a' : Int := if a < 0 then max (n + a) 0 else min a n
  let b' : Int := if b < 0 then max (n + b) 0 else min b n
  (l.take b'.toNat).drop a'.toNat

/-! ## The data-source state

Weak references are not modelled: an index entry always resolves.  (The
retention set is still tracked so claims about it can be stated; garbage
collection itself is nondeterministic and outside the embedding.) -/

/-- The mutable state of one `DataSource` + `dbapi` pair (yaml backend).
Index values are node addresses — every value ever stored in an index is a
`Node`.  `aliases` is `_aliases`, a PLAIN dict (case-sensitive), mapping an
attribute alias to the attribute name string stored by
`put_attribute_alias`. -/
structure DB where
  heap : Heap
  strong : List NodeId
  personal2node : List (String × NodeId)
  tango2node : List (String × NodeId)
  class2node : List (String × NodeId)
  aliases : List (String × String)
  propAttrDevice : List (String × List (String × PyVal))
deriving DecidableEq, Repr

/-- `CaseInsensitiveDict.get`: the key is lowered before lookup. -/
def ciGet (idx : List (String × NodeId)) (k : String) : Option NodeId :=
  alookup idx (pyLower k)

/-- `CaseInsensitiveDict.__setitem__`. -/
def ciSet (idx : List (String × NodeId)) (k : String) (v : NodeId) : List (String × NodeId) :=
  aset idx (pyLower k) v

/-- `CaseInsensitiveDict.__delitem__` / the removal half of `pop`. -/
def ciDel (idx : List (String × NodeId)) (k : String) : List (String × NodeId) :=
  adel idx (pyLower k)

/-- `set.add` on the strong-retention set. -/
def addStrong (s : List NodeId) (i : NodeId) : List NodeId :=
  if s.contains i then s else s ++ [i]

/-- A data source with no loaded documents and empty indices
(`_init_db` on an empty directory, before bootstrap). -/
def emptyDB : DB :=
  { heap := ⟨[], 0⟩
    strong := []
    personal2node := []
    tango2node := []
    class2node := []
    aliases := []
    propAttrDevice := [] }

/-- `DataSource._bootstrap_db(personal_name)`: synthesize the database's own
server node and device node and index them. -/
def bootstrapDb (db : DB) (personalName : String) : DB :=
  let (beacon, h1) := db.heap.alloc (Obj.node [] Option.none)
  let h2 := h1.set beacon (Obj.node [("server", .str "DataBaseds"),
    ("personal_name", .str personalName)] Option.none)
  let tangoName := "sys/database/" ++ personalName
  let (dev, h3) := h2.alloc (Obj.node [] (some beacon))
  let h4 := h3.set dev (Obj.node [("class", .str "DataBase"),
    ("tango_name", .str tangoName)] (some beacon))
  -- `self._beacon_dserver_node["device"] = [database_device_node]`: a raw list
  let (lst, h5) := h4.alloc (Obj.rawList [.ref dev])
  let h6 := h5.set beacon (Obj.node [("server", .str "DataBaseds"),
    ("personal_name", .str personalName), ("device", .ref lst),
    ("tango_name", .str tangoName)] Option.none)
  let tangoNameDs := "dserver/databaseds/" ++ personalName
  let serverName := "DataBaseds/" ++ personalName
  { db with
    heap := h6
    tango2node := ciSet (ciSet db.tango2node tangoName dev) tangoNameDs beacon
    personal2node := ciSet db.personal2node serverName beacon }

/-- A bootstrapped database over an empty document set. -/
def initDb (personalName : String) : DB :=
  bootstrapDb emptyDB personalName

/-! ## Property reference resolution -/

/-- `YamlDataSource.get_node(refname)`: `self.tango_name_2_node[refname]`
raises `KeyError` when absent; a stored value that is not yet a `Node` is
wrapped and written back (the wrap copies a raw dict; a non-mapping cannot be
wrapped). -/
def getNode (db : DB) (refname : String) : Except PyErr (NodeId × DB) :=
  match ciGet db.tango2node refname with
  | Option.none => .error .keyError
  | some nid =>
    match db.heap.find nid with
    | some (Obj.node _ _) => .ok (nid, db)
    | some (Obj.rawMap m) =>
      let (j, h') := db.heap.alloc (Obj.node m Option.none)
      .ok (j, { db with heap := h', tango2node := ciSet db.tango2node refname j })
    | _ => .error .typeError

/-- The segment-walking loop shared by `get_property_node` and
`put_device_property`: `property_node = property_node.get(key)`, breaking to
`None` as soon as a lookup returns `None`. -/
def followKeys : List String → PyVal → Heap → Except PyErr (PyVal × Heap)
  | [], v, h => .ok (v, h)
  | k :: rest, v, h =>
    match valGet h v k .pynone with
    | .error e => .error e
    | .ok (v', h') =>
      if v' = .pynone then .ok (.pynone, h')
      else followKeys rest v' h'

/-- Resolve a string-valued `properties` reference `"<entity>/k1/k2/..."`.
The source's `if properties_key == node_refname` compares a list with a
string and is always false, so the walking loop always runs. -/
def resolvePropRef (db : DB) (s : String) : Except PyErr (PyVal × DB) :=
  let keys := pySplit s
  let refname := keys.headD ""
  match getNode db refname with
  | .error e => .error e
  | .ok (tid, db1) =>
    match followKeys keys.tail (.ref tid) db1.heap with
    | .error e => .error e
    | .ok (v, h') => .ok (v, { db1 with heap := h' })

/-- `DataSource.get_property_node(dev_name)`: `None` when the device is not
indexed or has no `properties`; the value itself when inline; the resolved
target when the value is a string reference. -/
def getPropertyNode (db : DB) (devName : String) : Except PyErr (PyVal × DB) :=
  let dn := pyLower devName
  match ciGet db.tango2node dn with
  | Option.none => .ok (.pynone, db)
  | some nid =>
    let (props, h1) := nodeGet db.heap nid "properties" .pynone
    let db1 := { db with heap := h1 }
    match props with
    | .str s => resolvePropRef db1 s
    | v => .ok (v, db1)

/-- `YamlDataSource.get_property_attr_device(dev_name)`: the stored raw dict
is created on first use, then wrapped in a FRESH `Node` copy on every call —
mutations through the wrapper never reach the stored dict. -/
def getPropertyAttrDevice (db : DB) (devName : String) : NodeId × DB :=
  let key := pyReplaceSlashDot (pyLower devName)
  let stored := (alookup db.propAttrDevice key).getD []
  let pad' :=
    if (alookup db.propAttrDevice key).isSome then db.propAttrDevice
    else aset db.propAttrDevice key []
  let (wid, h') := db.heap.alloc (Obj.node stored Option.none)
  (wid, { db with heap := h', propAttrDevice := pad' })

/-! ## Classifier (`DataSource._parse_tango_server`) -/

/-- The device loop of `_parse_tango_server`: each entry of the server's
`device` list is copied into a fresh `Node` parented to the server
(`create_device`), indexed under its lowered `tango_name` and, when present,
under its `alias`, and added to the retention set.  Only string (or absent)
aliases are modelled; a non-string `tango_name` raises `AttributeError` on
`.lower()` as in Python. -/
def parseDevicesLoop (snid : NodeId) : List PyVal → DB → Except PyErr DB
  | [], db => .ok db
  | dv :: rest, db =>
    match mapEntriesOf db.heap dv with
    | .error e => .error e
    | .ok entries =>
      let (devId, h1) := db.heap.alloc (Obj.node entries (some snid))
      let (tval, h2) := nodeGet h1 devId "tango_name" .pynone
      let idx1 :=
        match tval with
        | .str t => some (ciSet db.tango2node (pyLower t) devId)
        | .pynone => some db.tango2node
        | .ref _ => Option.none
      match idx1 with
      | Option.none => .error .attributeError
      | some tangoIdx =>
        let (aval, h3) := nodeGet h2 devId "alias" .pynone
        let idx2 :=
          match aval with
          | .str a => some (ciSet tangoIdx a devId)
          | .pynone => some tangoIdx
          | .ref _ => Option.none
        match idx2 with
        | Option.none => .error .typeError
        | some tangoIdx2 =>
          parseDevicesLoop snid rest
            { db with
              heap := h3
              tango2node := tangoIdx2
              strong := addStrong db.strong devId }

/-- `DataSource._parse_tango_server(node)`: called by the classify pass on a
map-shaped node that has a `server` key.  A `None` (or absent) `server` value
is logged and the node skipped; a missing `personal_name` is NOT checked —
the node is indexed with `"None"` as its instance segment.  A missing
`device` key makes the iteration raise `TypeError`. -/
def parseTangoServer (db : DB) (nid : NodeId) : Except PyErr DB :=
  let (pval, h1) := nodeGet db.heap nid "personal_name" .pynone
  match pval with
  | .ref _ => .error .attributeError   -- personal_name.lower() on a container
  | _ =>
    let personal : Option String :=
      match pval with
      | .str s => some (pyLower s)
      | _ => Option.none
    let (sval, h2) := nodeGet h1 nid "server" .pynone
    if sval = .pynone then .ok { db with heap := h2 }
    else
      let dname := pyStr sval ++ "/" ++ personal.getD "None"
      let db2 : DB :=
        { db with
          heap := h2
          personal2node := ciSet db.personal2node dname nid
          tango2node := ciSet db.tango2node ("dserver/" ++ pyLower dname) nid
          strong := addStrong db.strong nid }
      let (devs, h3) := nodeGet db2.heap nid "device" .pynone
      match iterElems h3 devs with
      | .error e => .error e
      | .ok (dvs, h4) => parseDevicesLoop nid dvs { db2 with heap := h4 }

/-! ## Facade operations (`dbapi`) -/

/-- `dbapi.add_device(server_name, dev_info, klass_name, alias=None)` (the
`alias` argument is `aliasArg` here, `alias` being a Lean keyword).
A tango-name already present in the entity index returns immediately with no
mutation.  Otherwise the owning server node is found or created, a fresh
device node is created under it (with `tango_name`, `class` and, when given,
`alias` keys written in that order), appended to the server's `device` list
(whose default `[]` is a fresh raw list evaluated before the lookup), and the
tango-name — but not the alias — is indexed. -/
def addDevice (db : DB) (serverName : String) (devInfo : String × String)
    (klassName : String) (aliasArg : Option String) : Except PyErr DB :=
  let tangoName := pyLower devInfo.1
  match ciGet db.tango2node tangoName with
  | some _ => .ok db
  | Option.none =>
    match pySplit serverName with
    | [serverExeName, personalRaw] =>
      let personalName := pyLower personalRaw
      let sname := serverExeName ++ "/" ++ personalName
      let (snid, db1) :=
        match ciGet db.personal2node sname with
        | some snid => (snid, db)
        | Option.none =>
          let (snid, h1) := db.heap.alloc (Obj.node [] Option.none)
          let h2 := h1.set snid (Obj.node [("server", .str serverExeName),
            ("personal_name", .str personalName)] Option.none)
          (snid,
            { db with
              heap := h2
              personal2node := ciSet db.personal2node sname snid
              tango2node := ciSet db.tango2node ("dserver/" ++ pyLower sname) snid
              strong := addStrong db.strong snid })
      let (devId, h3) := db1.heap.alloc (Obj.node [] (some snid))
      let strong2 := addStrong db1.strong devId
      -- the three `device_node[...] = ...` writes on the fresh empty node
      let h4 := h3.set devId (Obj.node
        ([("tango_name", .str tangoName), ("class", .str klassName)] ++
          (match aliasArg with | some a => [("alias", .str a)] | Option.none => []))
        (some snid))
      let (dfltId, h5) := h4.alloc (Obj.rawList [])
      let (lstVal, h6) := nodeGet h5 snid "device" (.ref dfltId)
      match valAppend h6 lstVal (.ref devId) with
      | .error e => .error e
      | .ok h7 =>
        match valSetItem h7 (.ref snid) "device" lstVal with
        | .error e => .error e
        | .ok h8 =>
          let db2 : DB :=
            { db1 with
              heap := h8
              strong := strong2
              tango2node := ciSet db1.tango2node tangoName devId }
          match valSave db2.heap (.ref snid) with
          | .error e => .error e
          | .ok _ => .ok db2
    | _ => .error .valueError   -- `server_name.split("/")` does not unpack to two names

/-- `dbapi.delete_device(dev_name)`: pop the entity-index entry, detach the
node from its parent's `device` list, and clear (a fresh wrapper copy of) the
attribute-property side table. -/
def deleteDevice (db : DB) (devName : String) : Except PyErr DB :=
  let dn := pyLower devName
  match ciGet db.tango2node dn with
  | Option.none => .ok db
  | some nid =>
    let db1 := { db with tango2node := ciDel db.tango2node dn }
    let parentOf : Option (Option NodeId) :=
      match db.heap.find nid with
      | some (Obj.node _ p) => some p
      | some (Obj.nodeList _ p) => some p
      | _ => Option.none
    match parentOf with
    | Option.none => .error .attributeError
    | some Option.none => .ok db1   -- "weird": no parent, give up after the pop
    | some (some par) =>
      let (dfltId, h1) := db1.heap.alloc (Obj.rawList [])
      let (lstVal, h2) := nodeGet h1 par "device" (.ref dfltId)
      match valRemove h2 lstVal (.ref nid) with
      | .error e => .error e
      | .ok h3 =>
        match valSave h3 (.ref par) with
        | .error e => .error e
        | .ok _ =>
          let (wid, db2) := getPropertyAttrDevice { db1 with heap := h3 } dn
          match valClear db2.heap (.ref wid) with
          | .error e => .error e
          | .ok h4 => .ok { db2 with heap := h4 }

/-- `dbapi.get_alias_device(dev_alias)`: entity-index lookup of the alias;
a miss raises the typed error naming the alias and the operation. -/
def getAliasDevice (db : DB) (devAlias : String) : Except PyErr (PyVal × DB) :=
  match ciGet db.tango2node devAlias with
  | Option.none =>
    .error (.dbError "DB_DeviceNotDefined"
      ("No device found for alias \x27" ++ devAlias ++ "\x27")
      "DataBase::GetAliasDevice()")
  | some nid =>
    let (v, h') := nodeGet db.heap nid "tango_name" .pynone
    .ok (v, { db with heap := h' })

/-- `dbapi.get_attribute_alias(attr_alias_name)`.  On a miss the source
builds the message `"No attribute found for alias '" + attr_alias + "'"`
where `attr_alias` is the alias MAPPING, not the name — string+dict raises
`TypeError` before `th_exc` is reached.  On a hit it calls
`attr_alias_info.get("name")`, but the stored binding is the plain string
written by `put_attribute_alias`, so `str.get` raises `AttributeError`. -/
def getAttributeAlias (db : DB) (attrAliasName : String) : Except PyErr String :=
  match alookup db.aliases attrAliasName with
  | Option.none => .error .typeError
  | some _ => .error .attributeError

/-- `dbapi.get_attribute_alias_list(attr_alias_name)`: `[]` on a miss; on a
hit the same `str.get` slip as `get_attribute_alias`. -/
def getAttributeAliasList (db : DB) (attrAliasName : String) : Except PyErr (List String) :=
  match alookup db.aliases attrAliasName with
  | Option.none => .ok []
  | some _ => .error .attributeError

/-- `dbapi.put_attribute_alias(attribute_name, attr_alias_name)`: raises the
typed already-exists error whenever the alias has ANY binding (even to the
same attribute name); otherwise stores the binding. -/
def putAttributeAlias (db : DB) (attributeName attrAliasName : String) : Except PyErr DB :=
  match alookup db.aliases attrAliasName with
  | some _ =>
    .error (.dbError "DB_SQLError"
      ("alias " ++ attrAliasName ++ " already exists!")
      "DataBase::DbPutAttributeAlias()")
  | Option.none => .ok { db with aliases := aset db.aliases attrAliasName attributeName }

/-- One matched key of `get_device_property`: `values = properties.get(key, "")`;
a list value is rendered element-wise with its length, anything else is a
scalar with count `"1"`.  The queried `property_name` — not the matched
key — is written into the bag. -/
def encodeOneKey (h : Heap) (props : PyVal) (pname key : String) :
    Except PyErr (List String × Heap) :=
  match valGet h props key (.str "") with
  | .error e => .error e
  | .ok (v, h1) =>
    if isSeq h1 v then
      match seqStrs h1 v with
      | .error e => .error e
      | .ok (strs, h2) => .ok ([pname, Nat.repr strs.length] ++ strs, h2)
    else .ok ([pname, "1", pyStr v], h1)

/-- The inner `for key in ask_keys` loop of `get_device_property`. -/
def encodeAskKeys (props : PyVal) (pname : String) :
    List String → Heap → Except PyErr (List String × Heap)
  | [], h => .ok ([], h)
  | k :: ks, h =>
    match encodeOneKey h props pname k with
    | .error e => .error e
    | .ok (arr, h1) =>
      match encodeAskKeys props pname ks h1 with
      | .error e => .error e
      | .ok (rest, h2) => .ok (arr ++ rest, h2)

/-- The outer loop of `get_device_property`: each queried name is used as a
wildcard over the stored keys; no match contributes the `(name, "0", "")`
sentinel and counts 1, otherwise every matched key is encoded and counted. -/
def encodeQuery (props : PyVal) (keys : List String) :
    List String → Heap → Except PyErr (Nat × List String × Heap)
  | [], h => .ok (0, [], h)
  | pname :: rest, h =>
    let ask := list_filter pname (keys.map some)
    match (if ask.isEmpty then .ok ([pname, "0", ""], h)
           else encodeAskKeys props pname ask h : Except PyErr (List String × Heap)) with
    | .error e => .error e
    | .ok (arr, h1) =>
      match encodeQuery props keys rest h1 with
      | .error e => .error e
      | .ok (nb, arr2, h2) =>
        .ok ((if ask.isEmpty then 1 else ask.length) + nb, arr ++ arr2, h2)

/-- `dbapi.get_device_property(dev_name, properties_query_list)`: when no
property container resolves, every queried name gets the `(name, "0", "")`
sentinel; otherwise the container is encoded per `encodeQuery`.  The leading
device name keeps the caller's case. -/
def getDeviceProperty (db : DB) (devName : String) (queryList : List String) :
    Except PyErr (List String × DB) :=
  match getPropertyNode db devName with
  | .error e => .error e
  | .ok (props, db1) =>
    if props = .pynone then
      .ok ([devName, Nat.repr queryList.length] ++
        queryList.flatMap (fun p => [p, "0", ""]), db1)
    else
      match valKeys db1.heap props with
      | .error e => .error e
      | .ok keys =>
        match encodeQuery props keys queryList db1.heap with
        | .error e => .error e
        | .ok (nb, arr, h') => .ok ([devName, Nat.repr nb] ++ arr, { db1 with heap := h' })

/-- The bag-decoding loop of `put_device_property`: for each of the
`nb_properties` groups, read `(name, count)`, then store a single bag element
as a scalar when the count parses to `1` and a fresh raw list of the sliced
elements otherwise. -/
def putPropsLoop (props : PyVal) (bag : List String) :
    Nat → Int → Heap → Except PyErr Heap
  | 0, _, h => .ok h
  | k + 1, pos, h =>
    match pyListGet bag pos with
    | .error e => .error e
    | .ok pname =>
      match pyListGet bag (pos + 1) with
      | .error e => .error e
      | .ok cntStr =>
        match pyInt? cntStr with
        | Option.none => .error .valueError
        | some n =>
          if n = 1 then
            match pyListGet bag (pos + 2) with
            | .error e => .error e
            | .ok v =>
              match valSetItem h props pname (.str v) with
              | .error e => .error e
              | .ok h' => putPropsLoop props bag k (pos + 2 + n) h'
          else
            let strs := pySlice bag (pos + 2) (pos + 2 + n)
            let (rid, h1) := h.alloc (Obj.rawList (strs.map PyVal.str))
            match valSetItem h1 props pname (.ref rid) with
            | .error e => .error e
            | .ok h' => putPropsLoop props bag k (pos + 2 + n) h'

/-- `dbapi.put_device_property(device_name, nb_properties, attr_prop_list)`.
An unindexed device raises `AttributeError` (`None.get`).  A string-valued
`properties` is resolved exactly as in `get_property_node`; an absent
container is created as a fresh `Node` child and written back; then the bag
is decoded into the container and `properties.save()` is called (which
raises `AttributeError` when the container is a raw dict). -/
def putDeviceProperty (db : DB) (devName : String) (nbProperties : Nat)
    (bag : List String) : Except PyErr DB :=
  let dn := pyLower devName
  match ciGet db.tango2node dn with
  | Option.none => .error .attributeError
  | some nid =>
    let (oldProps, h1) := nodeGet db.heap nid "properties" .pynone
    let db1 : DB := { db with heap := h1 }
    let resolved : Except PyErr (PyVal × DB) :=
      match oldProps with
      | .str s => resolvePropRef db1 s
      | v => .ok (v, db1)
    match resolved with
    | .error e => .error e
    | .ok (old2, db2) =>
      let setup : Except PyErr (PyVal × DB) :=
        if old2 = .pynone then
          let (pid, h2) := db2.heap.alloc (Obj.node [] (some nid))
          match valSetItem h2 (.ref nid) "properties" (.ref pid) with
          | .error e => .error e
          | .ok h3 =>
            match valSave h3 (.ref nid) with
            | .error e => .error e
            | .ok _ => .ok (.ref pid, { db2 with heap := h3 })
        else .ok (old2, db2)
      match setup with
      | .error e => .error e
      | .ok (props, db3) =>
        match putPropsLoop props bag nbProperties 0 db3.heap with
        | .error e => .error e
        | .ok h' =>
          match valSave h' props with
          | .error e => .error e
          | .ok _ => .ok { db3 with heap := h' }

/-! ## Association-list and heap lemmas -/

theorem alookup_aset_self {κ α : Type} [DecidableEq κ] (l : List (κ × α)) (k : κ) (v : α) :
    alookup (aset l k v) k = some v := by
  induction l with
  | nil => simp [aset, alookup]
  | cons p rest ih =>
    obtain ⟨pk, pv⟩ := p
    by_cases hp : pk = k
    · simp [aset, alookup, hp]
    · simpa [aset, alookup, hp] using ih

theorem alookup_adel_self {κ α : Type} [DecidableEq κ] (l : List (κ × α)) (k : κ) :
    alookup (adel l k) k = Option.none := by
  induction l with
  | nil => rfl
  | cons p rest ih =>
    obtain ⟨pk, pv⟩ := p
    by_cases hp : pk = k
    · simpa [adel, List.filter, hp] using ih
    · simpa [adel, List.filter, alookup, hp] using ih

theorem alookup_append_some {κ α : Type} [DecidableEq κ] {l1 : List (κ × α)} {k : κ} {v : α}
    (l2 : List (κ × α)) (hl : alookup l1 k = some v) :
    alookup (l1 ++ l2) k = some v := by
  induction l1 with
  | nil => simp [alookup] at hl
  | cons p rest ih =>
    obtain ⟨pk, pv⟩ := p
    by_cases hp : pk = k
    · simpa [alookup, hp] using hl
    · simp only [alookup, if_neg hp] at hl
      simpa [alookup, hp] using ih hl

theorem alookup_append_none {κ α : Type} [DecidableEq κ] {l1 : List (κ × α)} {k : κ}
    (l2 : List (κ × α)) (hl : alookup l1 k = Option.none) :
    alookup (l1 ++ l2) k = alookup l2 k := by
  induction l1 with
  | nil => rfl
  | cons p rest ih =>
    obtain ⟨pk, pv⟩ := p
    by_cases hp : pk = k
    · simp [alookup, hp] at hl
    · simp only [alookup, if_neg hp] at hl
      simpa [alookup, hp] using ih hl

theorem alookup_mem {κ α : Type} [DecidableEq κ] {l : List (κ × α)} {k : κ} {v : α}
    (h : alookup l k = some v) : (k, v) ∈ l := by
  induction l with
  | nil => simp [alookup] at h
  | cons p rest ih =>
    obtain ⟨pk, pv⟩ := p
    by_cases hp : pk = k
    · simp only [alookup, if_pos hp, Option.some.injEq] at h
      subst hp
      subst h
      exact List.mem_cons_self _ _
    · simp only [alookup, if_neg hp] at h
      exact List.mem_cons_of_mem _ (ih h)

theorem alookup_map_update_ne {κ α : Type} [DecidableEq κ] (l : List (κ × α)) (i : κ) (o : α)
    {j : κ} (hj : ¬j = i) :
    alookup (l.map (fun p => if p.1 = i then (i, o) else p)) j = alookup l j := by
  have hij : ¬i = j := fun hh => hj hh.symm
  induction l with
  | nil => rfl
  | cons p rest ih =>
    obtain ⟨pk, pv⟩ := p
    simp only [List.map_cons]
    by_cases hp : pk = i
    · have hpj : ¬pk = j := hp ▸ hij
      rw [if_pos (show (pk, pv).1 = i from hp)]
      simp only [alookup, if_neg hij, if_neg hpj]
      exact ih
    · rw [if_neg (show ¬(pk, pv).1 = i from hp)]
      by_cases hpj : pk = j
      · simp [alookup, hpj]
      · simp only [alookup, if_neg hpj]
        exact ih

theorem alookup_map_update_self {κ α : Type} [DecidableEq κ] (l : List (κ × α)) (i : κ) (o : α)
    {o0 : α} (hf : alookup l i = some o0) :
    alookup (l.map (fun p => if p.1 = i then (i, o) else p)) i = some o := by
  induction l with
  | nil => simp [alookup] at hf
  | cons p rest ih =>
    obtain ⟨pk, pv⟩ := p
    simp only [List.map_cons]
    by_cases hp : pk = i
    · rw [if_pos (show (pk, pv).1 = i from hp)]
      simp [alookup]
    · rw [if_neg (show ¬(pk, pv).1 = i from hp)]
      simp only [alookup, if_neg hp] at hf ⊢
      exact ih hf

theorem Heap.find_alloc_of_ne (h : Heap) (o : Obj) {i : NodeId} (hi : ¬i = h.next) :
    ((h.alloc o).2).find i = h.find i := by
  show alookup (h.objs ++ [(h.next, o)]) i = alookup h.objs i
  cases hfind : alookup h.objs i with
  | some v => exact alookup_append_some _ hfind
  | none =>
    rw [alookup_append_none _ hfind]
    have hni : ¬h.next = i := fun hh => hi hh.symm
    simp [alookup, hni]

theorem Heap.find_next_of_wf {h : Heap} (hwf : h.WF) : h.find h.next = Option.none := by
  cases hfind : h.find h.next with
  | none => rfl
  | some v =>
    have hlt := hwf _ (alookup_mem hfind)
    simp at hlt

theorem Heap.find_alloc_self (h : Heap) (o : Obj) (hwf : h.WF) :
    ((h.alloc o).2).find h.next = some o := by
  show alookup (h.objs ++ [(h.next, o)]) h.next = some o
  rw [alookup_append_none _ (Heap.find_next_of_wf hwf)]
  simp [alookup]

theorem Heap.find_set_of_ne (h : Heap) (i : NodeId) (o : Obj) {j : NodeId} (hj : ¬j = i) :
    (h.set i o).find j = h.find j :=
  alookup_map_update_ne h.objs i o hj

theorem Heap.find_set_self (h : Heap) (i : NodeId) (o : Obj) {o0 : Obj}
    (hfound : h.find i = some o0) : (h.set i o).find i = some o :=
  alookup_map_update_self h.objs i o hfound

theorem Heap.WF.alloc {h : Heap} (hwf : h.WF) (o : Obj) : ((h.alloc o).2).WF := by
  intro p hp
  show p.1 < h.next + 1
  rcases List.mem_append.1 hp with hmem | hmem
  · exact Nat.lt_succ_of_lt (hwf _ hmem)
  · have hpo : p = (h.next, o) := by simpa using hmem
    subst hpo
    exact Nat.lt_succ_self _

theorem Heap.WF.set {h : Heap} (hwf : h.WF) (i : NodeId) (o : Obj)
    (hi : i < h.next) : (h.set i o).WF := by
  intro p hp
  show p.1 < h.next
  rcases List.mem_map.1 hp with ⟨q, hq, hmap⟩
  by_cases hqi : q.1 = i
  · simp only [if_pos hqi] at hmap
    rw [← hmap]
    exact hi
  · simp only [if_neg hqi] at hmap
    rw [← hmap]
    exact hwf _ hq

theorem Heap.next_alloc (h : Heap) (o : Obj) : ((h.alloc o).2).next = h.next + 1 := rfl

theorem Heap.fst_alloc (h : Heap) (o : Obj) : (h.alloc o).1 = h.next := rfl

theorem Heap.next_set (h : Heap) (i : NodeId) (o : Obj) : (h.set i o).next = h.next := rfl

/-! ## Wildcard matcher lemmas -/

theorem globMatch_self (cs : List Char) (h : ∀ c ∈ cs, c ≠ '*' ∧ c ≠ '.') :
    globMatch cs cs = true := by
  induction cs with
  | nil => rfl
  | cons c rest ih =>
    have hc := h c (List.mem_cons_self c rest)
    have ih' := ih (fun x hx => h x (List.mem_cons_of_mem c hx))
    simp [globMatch, hc.1, hc.2, ih']

theorem pyStr_map_str (vs : List String) : (vs.map PyVal.str).map pyStr = vs := by
  induction vs with
  | nil => rfl
  | cons v rest ih => simp [pyStr, ih]

theorem Heap.lt_next_of_find {h : Heap} {i : NodeId} {o : Obj}
    (hwf : h.WF) (hf : h.find i = some o) : i < h.next := by
  have := hwf _ (alookup_mem hf)
  simpa using this

theorem contains_addStrong (s : List NodeId) (i : NodeId) :
    (addStrong s i).contains i = true := by
  by_cases h : s.contains i <;> simp_all [addStrong]

/-! ## Claims -/

/-- A state whose attribute-alias mapping already binds `aliasX`. -/
def aliasBoundDB : DB := { emptyDB with aliases := [("aliasX", "attr/x")] }

/-- C3 (as stated) is FALSE: re-putting `aliasX` for the SAME attribute name
`attr/x` raises the already-exists error instead of succeeding
idempotently. -/
theorem put_attribute_alias_same_name_raises :
    (putAttributeAlias emptyDB "attr/x" "aliasX").bind
        (fun db1 => putAttributeAlias db1 "attr/x" "aliasX") =
      .error (.dbError "DB_SQLError" "alias aliasX already exists!"
        "DataBase::DbPutAttributeAlias()") := rfl

/-- C3 (amended): `put_attribute_alias` fails with the AlreadyExists-class
error whenever the alias is already bound — to ANY attribute name, including
the same one — and creates the binding when the alias is unbound. -/
theorem put_attribute_alias_spec (db : DB) (attr aliasName : String) :
    (∀ a0, alookup db.aliases aliasName = some a0 →
      putAttributeAlias db attr aliasName =
        .error (.dbError "DB_SQLError" ("alias " ++ aliasName ++ " already exists!")
          "DataBase::DbPutAttributeAlias()")) ∧
    (alookup db.aliases aliasName = Option.none →
      putAttributeAlias db attr aliasName =
          .ok { db with aliases := aset db.aliases aliasName attr } ∧
        alookup (aset db.aliases aliasName attr) aliasName = some attr) := by
  constructor
  · intro a0 h
    simp [putAttributeAlias, h]
  · intro h
    exact ⟨by simp [putAttributeAlias, h], alookup_aset_self _ _ _⟩

/-- Witness for `put_attribute_alias_spec`: the already-bound branch fires
even for a DIFFERENT attribute name, and the unbound branch stores the
binding. -/
theorem put_attribute_alias_spec_witness :
    putAttributeAlias aliasBoundDB "attr/y" "aliasX" =
        .error (.dbError "DB_SQLError" ("alias " ++ "aliasX" ++ " already exists!")
          "DataBase::DbPutAttributeAlias()") ∧
      putAttributeAlias emptyDB "attr/x" "aliasX" =
        .ok { emptyDB with aliases := aset emptyDB.aliases "aliasX" "attr/x" } :=
  ⟨(put_attribute_alias_spec aliasBoundDB "attr/y" "aliasX").1 "attr/x" rfl,
    ((put_attribute_alias_spec emptyDB "attr/x" "aliasX").2 rfl).1⟩

/-- C9: the claim's not-found contract is broken by `get_attribute_alias`.
On an unbound alias the source concatenates the alias MAPPING (a dict) into
the error message — `"... '" + attr_alias + "'"` with `attr_alias` the dict —
raising a bare `TypeError` instead of the typed database error, and on a
bound alias it calls `.get("name")` on the stored plain string, raising
`AttributeError`.  The other operations of the claim do behave as specified:
`get_alias_device` raises the typed error naming the entity and the
operation, and `get_attribute_alias_list` returns `[]` on no match. -/
theorem get_attribute_alias_raises_untyped :
    getAttributeAlias emptyDB "missing" = .error .typeError ∧
      getAttributeAlias aliasBoundDB "aliasX" = .error .attributeError ∧
      getAttributeAliasList emptyDB "missing" = .ok [] ∧
      getAliasDevice emptyDB "missing" =
        .error (.dbError "DB_DeviceNotDefined"
          "No device found for alias \x27missing\x27" "DataBase::GetAliasDevice()") :=
  ⟨rfl, rfl, rfl, rfl⟩

/-- C10: `add_device` with a tango-name already present in the entity index
returns the state COMPLETELY unchanged — no index, heap, retention-set or
node mutation at all. -/
theorem add_device_existing_noop (db : DB) (serverName klassName : String)
    (devInfo : String × String) (aliasArg : Option String) (nid : NodeId)
    (hdev : ciGet db.tango2node (pyLower devInfo.1) = some nid) :
    addDevice db serverName devInfo klassName aliasArg = .ok db := by
  simp [addDevice, hdev]

/-- Witness for `add_device_existing_noop`: re-adding the bootstrap device
`sys/database/2` leaves the bootstrapped state untouched. -/
theorem add_device_existing_noop_witness :
    addDevice (initDb "2") "Foo/1" ("sys/database/2", "") "C" Option.none =
      .ok (initDb "2") :=
  add_device_existing_noop (initDb "2") "Foo/1" "C" ("sys/database/2", "")
    Option.none 1 rfl

/-- A node whose key `"k"` holds a raw (un-promoted) dict. -/
def rawValueHeap : Heap :=
  ⟨[(0, Obj.node [("k", PyVal.ref 1)] Option.none),
    (1, Obj.rawMap [("a", PyVal.str "b")])], 2⟩

/-- A `NodeList` (parented to node 0) whose element is a raw dict. -/
def rawElemHeap : Heap :=
  ⟨[(0, Obj.node [] Option.none),
    (1, Obj.nodeList [PyVal.ref 2] (some 0)),
    (2, Obj.rawMap [("a", PyVal.str "b")])], 3⟩

/-- C7: `Node.__getitem__` and `NodeList.__getitem__` behave as claimed
(promote, parent, cache, and return the SAME wrapper on a second read), but
`Node.get` does NOT: it computes and caches the promoted wrapper yet RETURNS
the raw un-promoted value on the first read — the claim fails for the `get`
read operation. -/
theorem node_get_returns_raw_value :
    (∃ h1, nodeGetItem rawValueHeap 0 "k" = .ok (.ref 2, h1) ∧
      h1.find 2 = some (Obj.node [("a", PyVal.str "b")] (some 0)) ∧
      h1.find 0 = some (Obj.node [("k", PyVal.ref 2)] Option.none) ∧
      nodeGetItem h1 0 "k" = .ok (.ref 2, h1)) ∧
    (∃ h2, nodeListGetItem rawElemHeap 1 0 = .ok (.ref 3, h2) ∧
      h2.find 3 = some (Obj.node [("a", PyVal.str "b")] (some 0)) ∧
      h2.find 1 = some (Obj.nodeList [PyVal.ref 3] (some 0)) ∧
      nodeListGetItem h2 1 0 = .ok (.ref 3, h2)) ∧
    (nodeGet rawValueHeap 0 "k" PyVal.pynone).1 = PyVal.ref 1 ∧
    rawValueHeap.find 1 = some (Obj.rawMap [("a", PyVal.str "b")]) ∧
    (nodeGet rawValueHeap 0 "k" PyVal.pynone).2.find 0 =
      some (Obj.node [("k", PyVal.ref 2)] Option.none) :=
  ⟨⟨_, rfl, rfl, rfl, rfl⟩, ⟨_, rfl, rfl, rfl, rfl⟩, rfl, rfl, rfl⟩

/-- The state after `add_device("Srv/1", ("a/b/c", ...), "MyClass",
alias="abc")` on the bootstrapped database. -/
def addAliasDB : DB :=
  match addDevice (initDb "2") "Srv/1" ("a/b/c", "") "MyClass" (some "abc") with
  | .ok d => d
  | .error _ => emptyDB

/-- C5: `add_device` with an alias stores the alias only as a key ON the
device node — it never registers the alias in the entity index — so the
claimed `get_alias_device("abc") = "a/b/c"` fails with the device-not-defined
error.  Everything else the claim lists does happen: the tango-name is
indexed (node 4), the device is parented under the freshly created server
node (3), which is indexed under `srv/1` and `dserver/srv/1`, and both nodes
are retained. -/
theorem add_device_alias_unresolvable :
    addDevice (initDb "2") "Srv/1" ("a/b/c", "") "MyClass" (some "abc") =
        .ok addAliasDB ∧
      ciGet addAliasDB.tango2node "abc" = Option.none ∧
      getAliasDevice addAliasDB "abc" =
        .error (.dbError "DB_DeviceNotDefined"
          "No device found for alias \x27abc\x27" "DataBase::GetAliasDevice()") ∧
      ciGet addAliasDB.tango2node "a/b/c" = some 4 ∧
      addAliasDB.heap.find 4 = some (Obj.node [("tango_name", PyVal.str "a/b/c"),
        ("class", PyVal.str "MyClass"), ("alias", PyVal.str "abc")] (some 3)) ∧
      ciGet addAliasDB.personal2node "Srv/1" = some 3 ∧
      ciGet addAliasDB.tango2node "dserver/Srv/1" = some 3 ∧
      addAliasDB.strong.contains 4 = true ∧
      addAliasDB.strong.contains 3 = true :=
  ⟨rfl, rfl, rfl, rfl, rfl, rfl, rfl, rfl, rfl⟩

/-- A server-shaped node that lacks `personal_name` (its `device` list is
empty so only the indexing of the node itself is at stake). -/
def noPersonalDB : DB :=
  { emptyDB with
    heap := ⟨[(0, Obj.node [("server", PyVal.str "Srv"), ("device", PyVal.ref 1)]
      Option.none), (1, Obj.rawList [])], 2⟩ }

/-- C6 (as stated) is FALSE: a server-shaped node missing `personal_name` is
NOT skipped — `_parse_tango_server` indexes it under `srv/none` (Python
renders the missing instance name as `"None"`), registers
`dserver/srv/none`, and adds it to the retention set. -/
theorem parse_missing_personal_name_indexed :
    ∃ db', parseTangoServer noPersonalDB 0 = .ok db' ∧
      ciGet db'.personal2node "Srv/None" = some 0 ∧
      ciGet db'.tango2node "dserver/srv/none" = some 0 ∧
      db'.strong = [0] :=
  ⟨_, rfl, rfl, rfl, rfl⟩

/-- C6 (amended): a server-shaped node whose `server` key is missing (or
`None`) is reported and skipped entirely — the state is returned unchanged —
but a node missing only `personal_name` IS indexed, under
`<server>/none` in the server index and `dserver/<server>/none` in the
entity index, and retained. -/
theorem parse_tango_server_missing_keys (db : DB) (nid : NodeId)
    (entries : List (String × PyVal)) (par : Option NodeId)
    (hwf : db.heap.WF)
    (hnode : db.heap.find nid = some (Obj.node entries par)) :
    ((alookup entries "personal_name" = Option.none ∨
        (∃ s, alookup entries "personal_name" = some (.str s))) →
      (alookup entries "server" = Option.none ∨
        alookup entries "server" = some .pynone) →
      parseTangoServer db nid = .ok db) ∧
    (∀ srv lid, alookup entries "personal_name" = Option.none →
      alookup entries "server" = some (.str srv) →
      alookup entries "device" = some (.ref lid) →
      db.heap.find lid = some (Obj.rawList []) →
      ∃ db', parseTangoServer db nid = .ok db' ∧
        ciGet db'.personal2node (srv ++ "/" ++ "None") = some nid ∧
        ciGet db'.tango2node ("dserver/" ++ pyLower (srv ++ "/" ++ "None")) = some nid ∧
        db'.strong.contains nid = true) := by
  constructor
  · rintro hpn hsv
    rcases hpn with hpn | ⟨s, hpn⟩ <;> rcases hsv with hsv | hsv <;>
      simp [parseTangoServer, nodeGet, hnode, hpn, hsv, patchVal]
  · intro srv lid hpn hsv hdev hlid
    have hlidne : ¬lid = nid := by
      intro hh
      rw [hh, hnode] at hlid
      simp at hlid
    have hlidlt : lid < db.heap.next := Heap.lt_next_of_find hwf hlid
    have hlidnx : ¬lid = db.heap.next := Nat.ne_of_lt hlidlt
    refine ⟨{ db with
        heap := ((db.heap.alloc (Obj.nodeList [] (some nid))).2).set nid
          (Obj.node (aset entries "device" (PyVal.ref db.heap.next)) par)
        personal2node := ciSet db.personal2node (srv ++ "/" ++ "None") nid
        tango2node := ciSet db.tango2node
          ("dserver/" ++ pyLower (srv ++ "/" ++ "None")) nid
        strong := addStrong db.strong nid }, ?_, ?_, ?_, ?_⟩
    · simp only [parseTangoServer, nodeGet, hnode, hpn, hsv, patchVal, hdev, hlid,
        Option.getD_some, Option.getD_none, Option.isSome_some]
      simp [iterElems, parseDevicesLoop, pyStr,
        Heap.find_set_of_ne _ _ _ hlidne, Heap.find_alloc_of_ne _ _ hlidnx, hlid]
      rfl
    · exact alookup_aset_self _ _ _
    · exact alookup_aset_self _ _ _
    · exact contains_addStrong _ _

/-- A server-shaped node whose `server` value is explicitly `None`. -/
def nullServerDB : DB :=
  { emptyDB with
    heap := ⟨[(0, Obj.node [("server", PyVal.pynone),
      ("personal_name", PyVal.str "X")] Option.none)], 1⟩ }

/-- Witness for `parse_tango_server_missing_keys`: a node whose `server`
value is `None` is skipped with the state unchanged. -/
theorem parse_tango_server_missing_keys_witness :
    parseTangoServer nullServerDB 0 = .ok nullServerDB :=
  (parse_tango_server_missing_keys nullServerDB 0
      [("server", PyVal.pynone), ("personal_name", PyVal.str "X")] Option.none
      (by decide) rfl).1 (Or.inr ⟨"X", rfl⟩) (Or.inr rfl)

/-- A device whose `properties` is a dangling reference path. -/
def danglingRefDB : DB :=
  { emptyDB with
    heap := ⟨[(0, Obj.node [("tango_name", PyVal.str "a/b/c"),
      ("properties", PyVal.str "missing/x")] Option.none)], 1⟩
    tango2node := [("a/b/c", 0)] }

/-- C8 (as stated) is FALSE for the FIRST path segment: when the first
segment of a string-valued `properties` reference does not resolve through
the entity index, `get_node` uses `__getitem__` and the resolver raises
`KeyError` instead of returning absent. -/
theorem get_property_node_first_segment_raises :
    getPropertyNode danglingRefDB "a/b/c" = .error .keyError := rfl

/-- C8 (amended): for an indexed device, an absent `properties` resolves to
absent (no error); an inline (already-promoted) map is returned itself; a
string reference is split on `/`, its FIRST segment must resolve through the
entity index or `KeyError` is raised, and each LATER segment short-circuits
to absent when missing. -/
theorem get_property_node_resolution (db : DB) (dev : String) (nid : NodeId)
    (entries : List (String × PyVal)) (par : Option NodeId)
    (hdev : ciGet db.tango2node (pyLower dev) = some nid)
    (hnode : db.heap.find nid = some (Obj.node entries par)) :
    (alookup entries "properties" = Option.none →
      getPropertyNode db dev = .ok (.pynone, db)) ∧
    (∀ pid pentries ppar, alookup entries "properties" = some (.ref pid) →
      db.heap.find pid = some (Obj.node pentries ppar) →
      getPropertyNode db dev = .ok (.ref pid, db)) ∧
    (∀ s r restKeys, alookup entries "properties" = some (.str s) →
      pySplit s = r :: restKeys →
      ciGet db.tango2node r = Option.none →
      getPropertyNode db dev = .error .keyError) ∧
    (∀ s r k tid tentries tpar, alookup entries "properties" = some (.str s) →
      pySplit s = [r, k] →
      ciGet db.tango2node r = some tid →
      db.heap.find tid = some (Obj.node tentries tpar) →
      alookup tentries k = Option.none →
      getPropertyNode db dev = .ok (.pynone, db)) := by
  refine ⟨?_, ?_, ?_, ?_⟩
  · intro h
    simp [getPropertyNode, hdev, nodeGet, hnode, h, patchVal]
  · intro pid pentries ppar h hpid
    simp [getPropertyNode, hdev, nodeGet, hnode, h, patchVal, hpid]
  · intro s r restKeys h hsplit hmiss
    simp [getPropertyNode, hdev, nodeGet, hnode, h, patchVal, resolvePropRef,
      hsplit, getNode, hmiss]
  · intro s r k tid tentries tpar h hsplit htid htnode hk
    simp [getPropertyNode, hdev, nodeGet, hnode, h, patchVal, resolvePropRef,
      hsplit, getNode, htid, htnode, followKeys, valGet, hk]

/-- A device node with no `properties` key at all. -/
def noPropsDB : DB :=
  { emptyDB with
    heap := ⟨[(0, Obj.node [("tango_name", PyVal.str "a/b/c")] Option.none)], 1⟩
    tango2node := [("a/b/c", 0)] }

/-- Witness for `get_property_node_resolution`: a device without a
`properties` key resolves to absent with the state unchanged. -/
theorem get_property_node_resolution_witness :
    getPropertyNode noPropsDB "a/b/c" = .ok (.pynone, noPropsDB) :=
  (get_property_node_resolution noPropsDB "a/b/c" 0
      [("tango_name", PyVal.str "a/b/c")] Option.none rfl rfl).1 rfl

/-! ## Step lemmas for symbolic execution of `Node.get` -/

theorem nodeGet_nopatch (h : Heap) (i : NodeId) (entries : List (String × PyVal))
    (par : Option NodeId) (key : String) (v dflt : PyVal)
    (hfind : h.find i = some (Obj.node entries par))
    (hkey : alookup entries key = some v)
    (hpatch : patchVal h (some i) v = Option.none) :
    nodeGet h i key dflt = (v, h) := by
  simp [nodeGet, hfind, hkey, hpatch]

theorem nodeGet_absent (h : Heap) (i : NodeId) (entries : List (String × PyVal))
    (par : Option NodeId) (key : String) (dflt : PyVal)
    (hfind : h.find i = some (Obj.node entries par))
    (hkey : alookup entries key = Option.none)
    (hdflt : patchVal h (some i) dflt = Option.none) :
    nodeGet h i key dflt = (dflt, h) := by
  simp [nodeGet, hfind, hkey, hdflt]

/-- Absent key with a raw-list default: the default is patched (a garbage
`NodeList` is allocated) but not cached, and the raw default is returned. -/
theorem nodeGet_absent_list_default (h : Heap) (i : NodeId)
    (entries : List (String × PyVal)) (par : Option NodeId) (key : String)
    (dfltId : NodeId) (xs : List PyVal)
    (hfind : h.find i = some (Obj.node entries par))
    (hkey : alookup entries key = Option.none)
    (hdflt : h.find dfltId = some (Obj.rawList xs)) :
    nodeGet h i key (.ref dfltId) =
      (.ref dfltId, (h.alloc (Obj.nodeList xs (some i))).2) := by
  simp [nodeGet, hfind, hkey, patchVal, hdflt]

/-- A raw-list value is promoted and cached, and the RAW reference is
returned. -/
theorem nodeGet_promote_list (h : Heap) (i : NodeId)
    (entries : List (String × PyVal)) (par : Option NodeId) (key : String)
    (lid : NodeId) (xs : List PyVal) (dflt : PyVal)
    (hfind : h.find i = some (Obj.node entries par))
    (hkey : alookup entries key = some (.ref lid))
    (hlid : h.find lid = some (Obj.rawList xs)) :
    nodeGet h i key dflt = (.ref lid,
      ((h.alloc (Obj.nodeList xs (some i))).2).set i
        (Obj.node (aset entries key (.ref h.next)) par)) := by
  simp [nodeGet, hfind, hkey, patchVal, hlid, Heap.alloc]

/-- When no property container resolves for the device (in particular when
the device is not in the entity index), `get_device_property` answers with
the zero-values sentinel for every queried name instead of raising. -/
theorem getDeviceProperty_unindexed (db : DB) (dev : String) (qs : List String)
    (h : ciGet db.tango2node (pyLower dev) = Option.none) :
    getDeviceProperty db dev qs =
      .ok ([dev, Nat.repr qs.length] ++ qs.flatMap (fun p => [p, "0", ""]), db) := by
  simp [getDeviceProperty, getPropertyNode, h]

/-- C4 (as stated) is FALSE: after deleting `a/b/c` the follow-up
`get_device_property` SUCCEEDS with the `("p1", "0", "")` sentinel bag
instead of failing with an EntityNotFound-class error. -/
theorem delete_then_get_property_returns_cex :
    ∃ db' db'', deleteDevice addAliasDB "a/b/c" = .ok db' ∧
      getDeviceProperty db' "a/b/c" ["p1"] =
        .ok (["a/b/c", "1", "p1", "0", ""], db'') :=
  ⟨_, _, rfl, rfl⟩

/-- C4 (amended): after `delete_device` removes an indexed device (one whose
parent's raw `device` list holds the node), a subsequent
`get_device_property` does not fail — the device no longer resolves, so the
call returns the sentinel bag `[dev, n, p, "0", "", ...]`. -/
theorem delete_device_then_get_property_sentinel (db : DB) (dev : String)
    (queryProps : List String) (nid par lid : NodeId)
    (dentries sentries : List (String × PyVal)) (spar : Option NodeId)
    (xs xs' : List PyVal)
    (hwf : db.heap.WF)
    (hdev : ciGet db.tango2node (pyLower dev) = some nid)
    (hnode : db.heap.find nid = some (Obj.node dentries (some par)))
    (hpar : db.heap.find par = some (Obj.node sentries spar))
    (hlist : alookup sentries "device" = some (.ref lid))
    (hlid : db.heap.find lid = some (Obj.rawList xs))
    (hrem : removeFirst xs (.ref nid) = some xs') :
    ∃ db', deleteDevice db dev = .ok db' ∧
      ciGet db'.tango2node (pyLower dev) = Option.none ∧
      getDeviceProperty db' dev queryProps =
        .ok ([dev, Nat.repr queryProps.length] ++
          queryProps.flatMap (fun p => [p, "0", ""]), db') := by
  have hplt : par < db.heap.next := Heap.lt_next_of_find hwf hpar
  have hllt : lid < db.heap.next := Heap.lt_next_of_find hwf hlid
  have hpnx : ¬par = db.heap.next := Nat.ne_of_lt hplt
  have hlnx : ¬lid = db.heap.next := Nat.ne_of_lt hllt
  have hpnx1 : ¬par = db.heap.next + 1 := Nat.ne_of_lt (Nat.lt_succ_of_lt hplt)
  have hlnx1 : ¬lid = db.heap.next + 1 := Nat.ne_of_lt (Nat.lt_succ_of_lt hllt)
  have hpl : ¬par = lid := by
    intro hh
    rw [hh, hlid] at hpar
    simp at hpar
  have hlp : ¬lid = par := fun hh => hpl hh.symm
  have hfind1par : ((db.heap.alloc (Obj.rawList [])).2).find par =
      some (Obj.node sentries spar) := by
    rw [Heap.find_alloc_of_ne _ _ hpnx]
    exact hpar
  have hfind1lid : ((db.heap.alloc (Obj.rawList [])).2).find lid =
      some (Obj.rawList xs) := by
    rw [Heap.find_alloc_of_ne _ _ hlnx]
    exact hlid
  have g1 := nodeGet_promote_list ((db.heap.alloc (Obj.rawList [])).2) par sentries
    spar "device" lid xs (.ref db.heap.next) hfind1par hlist hfind1lid
  have hfind2lid :
      ((((db.heap.alloc (Obj.rawList [])).2).alloc
          (Obj.nodeList xs (some par))).2.set par
        (Obj.node (aset sentries "device"
          (.ref ((db.heap.alloc (Obj.rawList [])).2).next)) spar)).find lid =
      some (Obj.rawList xs) := by
    rw [Heap.find_set_of_ne _ _ _ hlp, Heap.find_alloc_of_ne _ _ hlnx1]
    exact hfind1lid
  have hfind3par :
      (((((db.heap.alloc (Obj.rawList [])).2).alloc
            (Obj.nodeList xs (some par))).2.set par
          (Obj.node (aset sentries "device"
            (.ref ((db.heap.alloc (Obj.rawList [])).2).next)) spar)).set lid
        (Obj.rawList xs')).find par =
      some (Obj.node (aset sentries "device"
        (.ref ((db.heap.alloc (Obj.rawList [])).2).next)) spar) := by
    rw [Heap.find_set_of_ne _ _ _ hpl]
    exact Heap.find_set_self _ _ _ (show _ = some (Obj.node sentries spar) by
      rw [Heap.find_alloc_of_ne _ _ hpnx1]
      exact hfind1par)
  have hwf3 :
      (((((db.heap.alloc (Obj.rawList [])).2).alloc
            (Obj.nodeList xs (some par))).2.set par
          (Obj.node (aset sentries "device"
            (.ref ((db.heap.alloc (Obj.rawList [])).2).next)) spar)).set lid
        (Obj.rawList xs')).WF := by
    refine Heap.WF.set (Heap.WF.set ((hwf.alloc _).alloc _) _ _ ?_) _ _ ?_
    · exact Nat.lt_succ_of_lt (Nat.lt_succ_of_lt hplt)
    · exact Nat.lt_succ_of_lt (Nat.lt_succ_of_lt hllt)
  refine ⟨?_, ?_, ?_, ?_⟩
  rotate_left
  · simp only [deleteDevice, hdev, hnode, Heap.fst_alloc]
    simp only [g1]
    simp only [valRemove, hfind2lid, hrem, valSave, hfind3par,
      getPropertyAttrDevice, valClear, Heap.fst_alloc,
      Heap.find_alloc_self _ _ hwf3]
    exact rfl
  · exact alookup_adel_self _ _
  · exact getDeviceProperty_unindexed _ _ _ (alookup_adel_self _ _)

/-- Witness for `delete_device_then_get_property_sentinel` on the concrete
state built by `add_device`. -/
theorem delete_device_then_get_property_sentinel_witness :
    ∃ db', deleteDevice addAliasDB "a/b/c" = .ok db' ∧
      ciGet db'.tango2node (pyLower "a/b/c") = Option.none ∧
      getDeviceProperty db' "a/b/c" ["p1"] =
        .ok (["a/b/c", Nat.repr (["p1"] : List String).length] ++
          (["p1"] : List String).flatMap (fun p => [p, "0", ""]), db') :=
  delete_device_then_get_property_sentinel addAliasDB "a/b/c" ["p1"] 4 3 5
    [("tango_name", PyVal.str "a/b/c"), ("class", PyVal.str "MyClass"),
      ("alias", PyVal.str "abc")]
    [("server", PyVal.str "Srv"), ("personal_name", PyVal.str "1"),
      ("device", PyVal.ref 5)]
    Option.none [PyVal.ref 4] [] (by decide) rfl rfl rfl rfl rfl rfl

/-! ## Python indexing lemmas for the bag decoder -/

theorem pyListGet_zero {α : Type} (a : α) (l : List α) :
    pyListGet (a :: l) 0 = .ok a := by
  simp [pyListGet]

theorem pyListGet_one {α : Type} (a b : α) (l : List α) :
    pyListGet (a :: b :: l) (0 + 1) = .ok b := by
  norm_num [pyListGet]

theorem pyListGet_two {α : Type} (a b c : α) (l : List α) :
    pyListGet (a :: b :: c :: l) (0 + 2) = .ok c := by
  have h : (a :: b :: c :: l)[Int.toNat 2]? = some c := by
    show (a :: b :: c :: l)[(2 : Nat)]? = some c
    simp
  norm_num [pyListGet, h]

theorem pySlice_drop_two {α : Type} (a b : α) (l : List α) :
    pySlice (a :: b :: l) (0 + 2) (0 + 2 + (l.length : Int)) = l := by
  norm_num only
  have hlen : ((a :: b :: l).length : Int) = 2 + (l.length : Int) := by
    simp
    ring
  simp only [pySlice, hlen]
  have h1 : ¬(2 : Int) < 0 := by norm_num
  have h2 : ¬(2 + (l.length : Int)) < 0 := by omega
  rw [if_neg h1, if_neg h2]
  have hmina : min (2 : Int) (2 + (l.length : Int)) = 2 := by omega
  rw [hmina, min_self]
  have htn : (2 + (l.length : Int)).toNat = 2 + l.length := by omega
  have htn2 : (2 : Int).toNat = 2 := rfl
  rw [htn, htn2]
  rw [List.take_of_length_le (by simp only [List.length_cons]; omega)]
  rfl

theorem list_filter_self_plain (p : String)
    (hplain : ∀ c ∈ p.data, c ≠ '*' ∧ c ≠ '.') :
    list_filter p [some p] = [p] := by
  simp [list_filter, globMatch_self p.data hplain]

/-- Symbolic execution of `put_device_property` storing one scalar property
on a device whose node has no `properties` key: a fresh `Node` child is
created, linked under `properties`, and the single bag value stored in it as
a plain string. -/
theorem putDeviceProperty_scalar (db : DB) (dev p cnt v : String) (nid : NodeId)
    (entries : List (String × PyVal)) (par : Option NodeId)
    (hwf : db.heap.WF)
    (hdev : ciGet db.tango2node (pyLower dev) = some nid)
    (hnode : db.heap.find nid = some (Obj.node entries par))
    (hnoprops : alookup entries "properties" = Option.none)
    (hcnt : pyInt? cnt = some ((1 : Nat) : Int)) :
    putDeviceProperty db dev (0 + 1) [p, cnt, v] =
      .ok { db with heap := ((((db.heap.alloc (Obj.node [] (some nid))).2).set nid
        (Obj.node (aset entries "properties" (.ref db.heap.next)) par)).set
        db.heap.next (Obj.node [(p, PyVal.str v)] (some nid))) } := by
  have hnlt : nid < db.heap.next := Heap.lt_next_of_find hwf hnode
  have hnnx : ¬nid = db.heap.next := Nat.ne_of_lt hnlt
  have hn0nid : ¬db.heap.next = nid := fun hh => hnnx hh.symm
  have g0 : nodeGet db.heap nid "properties" .pynone = (.pynone, db.heap) :=
    nodeGet_absent _ _ _ _ _ _ hnode hnoprops rfl
  have f2nid : ((db.heap.alloc (Obj.node [] (some nid))).2).find nid =
      some (Obj.node entries par) := by
    rw [Heap.find_alloc_of_ne _ _ hnnx]
    exact hnode
  have f3nid : (((db.heap.alloc (Obj.node [] (some nid))).2).set nid
        (Obj.node (aset entries "properties" (.ref db.heap.next)) par)).find nid =
      some (Obj.node (aset entries "properties" (.ref db.heap.next)) par) :=
    Heap.find_set_self _ _ _ f2nid
  have f3n0 : (((db.heap.alloc (Obj.node [] (some nid))).2).set nid
        (Obj.node (aset entries "properties" (.ref db.heap.next)) par)).find
      db.heap.next = some (Obj.node [] (some nid)) := by
    rw [Heap.find_set_of_ne _ _ _ hn0nid]
    exact Heap.find_alloc_self _ _ hwf
  have f4n0 : ((((db.heap.alloc (Obj.node [] (some nid))).2).set nid
        (Obj.node (aset entries "properties" (.ref db.heap.next)) par)).set
        db.heap.next (Obj.node [(p, PyVal.str v)] (some nid))).find
      db.heap.next = some (Obj.node [(p, PyVal.str v)] (some nid)) :=
    Heap.find_set_self _ _ _ f3n0
  simp only [putDeviceProperty, hdev, g0]
  simp only [putPropsLoop, pyListGet_zero, pyListGet_one, pyListGet_two, hcnt,
    valSetItem, valSave, f2nid, f3nid, f3n0, f4n0, aset, Heap.fst_alloc, if_true,
    Nat.cast_one]

/-- Symbolic execution of `put_device_property` storing one list-valued
property on a device whose node has no `properties` key: a fresh `Node`
child is created and the sliced bag values are stored as a fresh raw
list. -/
theorem putDeviceProperty_list (db : DB) (dev p cnt : String) (vs : List String)
    (nid : NodeId) (entries : List (String × PyVal)) (par : Option NodeId)
    (hwf : db.heap.WF)
    (hdev : ciGet db.tango2node (pyLower dev) = some nid)
    (hnode : db.heap.find nid = some (Obj.node entries par))
    (hnoprops : alookup entries "properties" = Option.none)
    (hcnt : pyInt? cnt = some (vs.length : Int))
    (hne1 : ¬((vs.length : Int) = 1)) :
    putDeviceProperty db dev (0 + 1) ([p, cnt] ++ vs) =
      .ok { db with heap := (((((db.heap.alloc (Obj.node [] (some nid))).2).set nid
        (Obj.node (aset entries "properties" (.ref db.heap.next)) par)).alloc
        (Obj.rawList (vs.map PyVal.str))).2.set db.heap.next
        (Obj.node [(p, PyVal.ref (db.heap.next + 1))] (some nid))) } := by
  have hnlt : nid < db.heap.next := Heap.lt_next_of_find hwf hnode
  have hnnx : ¬nid = db.heap.next := Nat.ne_of_lt hnlt
  have hn0nid : ¬db.heap.next = nid := fun hh => hnnx hh.symm
  have hn0nx1 : ¬db.heap.next = db.heap.next + 1 := Nat.ne_of_lt (Nat.lt_succ_self _)
  have g0 : nodeGet db.heap nid "properties" .pynone = (.pynone, db.heap) :=
    nodeGet_absent _ _ _ _ _ _ hnode hnoprops rfl
  have f2nid : ((db.heap.alloc (Obj.node [] (some nid))).2).find nid =
      some (Obj.node entries par) := by
    rw [Heap.find_alloc_of_ne _ _ hnnx]
    exact hnode
  have f3nid : (((db.heap.alloc (Obj.node [] (some nid))).2).set nid
        (Obj.node (aset entries "properties" (.ref db.heap.next)) par)).find nid =
      some (Obj.node (aset entries "properties" (.ref db.heap.next)) par) :=
    Heap.find_set_self _ _ _ f2nid
  have f3n0 : (((db.heap.alloc (Obj.node [] (some nid))).2).set nid
        (Obj.node (aset entries "properties" (.ref db.heap.next)) par)).find
      db.heap.next = some (Obj.node [] (some nid)) := by
    rw [Heap.find_set_of_ne _ _ _ hn0nid]
    exact Heap.find_alloc_self _ _ hwf
  have f3bn0 : (((((db.heap.alloc (Obj.node [] (some nid))).2).set nid
        (Obj.node (aset entries "properties" (.ref db.heap.next)) par)).alloc
        (Obj.rawList (vs.map PyVal.str))).2).find db.heap.next =
      some (Obj.node [] (some nid)) := by
    rw [Heap.find_alloc_of_ne _ _ hn0nx1]
    exact f3n0
  have f4n0 : (((((db.heap.alloc (Obj.node [] (some nid))).2).set nid
        (Obj.node (aset entries "properties" (.ref db.heap.next)) par)).alloc
        (Obj.rawList (vs.map PyVal.str))).2.set db.heap.next
        (Obj.node [(p, PyVal.ref (db.heap.next + 1))] (some nid))).find
      db.heap.next = some (Obj.node [(p, PyVal.ref (db.heap.next + 1))] (some nid)) :=
    Heap.find_set_self _ _ _ f3bn0
  simp only [putDeviceProperty, hdev, g0]
  simp only [List.cons_append, List.nil_append]
  simp only [putPropsLoop, pyListGet_zero, pyListGet_one, hcnt, if_neg hne1,
    pySlice_drop_two, valSetItem, valSave, f2nid, f3nid, f3n0, f3bn0, f4n0, aset,
    Heap.fst_alloc, Heap.next_set, Heap.next_alloc, if_true]

/-- Symbolic execution of `get_device_property` for one plain property name
resolving (through the device's `properties` node) to a scalar string: the
bag is `[dev, "1", p, "1", v]` and the state is untouched. -/
theorem getDeviceProperty_scalar (db : DB) (dev p v : String)
    (nid pid : NodeId) (dentries : List (String × PyVal)) (dpar ppar : Option NodeId)
    (hdev : ciGet db.tango2node (pyLower dev) = some nid)
    (hnode : db.heap.find nid = some (Obj.node dentries dpar))
    (hprops : alookup dentries "properties" = some (.ref pid))
    (hpid : db.heap.find pid = some (Obj.node [(p, PyVal.str v)] ppar))
    (hplain : ∀ c ∈ p.data, c ≠ '*' ∧ c ≠ '.') :
    getDeviceProperty db dev [p] = .ok ([dev, "1", p, "1", v], db) := by
  simp only [getDeviceProperty, getPropertyNode, hdev,
    nodeGet_nopatch _ _ _ _ _ _ _ hnode hprops (by simp [patchVal, hpid]),
    valKeys, hpid]
  simp only [List.map_cons, List.map_nil, list_filter_self_plain p hplain,
    encodeQuery, encodeAskKeys, encodeOneKey, valGet, hpid,
    nodeGet_nopatch _ _ _ _ _ _ _ hpid
      (show alookup [(p, PyVal.str v)] p = some (PyVal.str v) by simp [alookup])
      rfl,
    isSeq, pyStr]
  simp
  exact rfl

/-- Symbolic execution of `get_device_property` for one plain property name
resolving to a raw list of strings: the raw list is promoted (and the
`NodeList` wrapper cached into the properties node), and the bag carries the
element count and the values in order. -/
theorem getDeviceProperty_list (db : DB) (dev p : String) (vs : List String)
    (nid pid rid : NodeId) (dentries : List (String × PyVal))
    (dpar ppar : Option NodeId)
    (hdev : ciGet db.tango2node (pyLower dev) = some nid)
    (hnode : db.heap.find nid = some (Obj.node dentries dpar))
    (hprops : alookup dentries "properties" = some (.ref pid))
    (hpid : db.heap.find pid = some (Obj.node [(p, PyVal.ref rid)] ppar))
    (hrid : db.heap.find rid = some (Obj.rawList (vs.map PyVal.str)))
    (hrp : ¬rid = pid) (hrn : ¬rid = db.heap.next)
    (hplain : ∀ c ∈ p.data, c ≠ '*' ∧ c ≠ '.') :
    getDeviceProperty db dev [p] =
      .ok ([dev, "1", p, Nat.repr vs.length] ++ vs,
        { db with heap := ((db.heap.alloc
          (Obj.nodeList (vs.map PyVal.str) (some pid))).2.set pid
          (Obj.node [(p, PyVal.ref db.heap.next)] ppar)) }) := by
  have f5rid : ((db.heap.alloc (Obj.nodeList (vs.map PyVal.str) (some pid))).2.set
        pid (Obj.node [(p, PyVal.ref db.heap.next)] ppar)).find rid =
      some (Obj.rawList (vs.map PyVal.str)) := by
    rw [Heap.find_set_of_ne _ _ _ hrp, Heap.find_alloc_of_ne _ _ hrn]
    exact hrid
  simp only [getDeviceProperty, getPropertyNode, hdev,
    nodeGet_nopatch _ _ _ _ _ _ _ hnode hprops (by simp [patchVal, hpid]),
    valKeys, hpid]
  simp only [List.map_cons, List.map_nil, list_filter_self_plain p hplain,
    encodeQuery, encodeAskKeys, encodeOneKey, valGet, hpid,
    nodeGet_promote_list _ _ _ _ _ _ _ _ hpid
      (show alookup [(p, PyVal.ref rid)] p = some (PyVal.ref rid) by
        simp [alookup])
      hrid,
    aset, isSeq, seqStrs, f5rid, pyStr_map_str]
  simp [f5rid, pyStr_map_str]
  refine ⟨rfl, ?_⟩
  rw [← List.map_map]
  exact pyStr_map_str vs

/-- C1: device-property round-trip across the bag encoding.  For a device in
the entity index whose node has no `properties` key yet, storing one property
with `put_device_property(dev, 1, [p, cnt, v1..vn])` and reading it back with
`get_device_property(dev, [p])` returns the bag
`[dev, "1", p, str(n), v1..vn]` — the same values in order, a single value
with count `"1"` and a list with its element count.  The property name must
be plain — free of `*` and of every regex metacharacter — since the getter
feeds it to the compiled-regex wildcard matcher. -/
theorem put_get_device_property_roundtrip (db : DB) (dev p cnt : String)
    (vs : List String) (nid : NodeId) (entries : List (String × PyVal))
    (par : Option NodeId)
    (hwf : db.heap.WF)
    (hdev : ciGet db.tango2node (pyLower dev) = some nid)
    (hnode : db.heap.find nid = some (Obj.node entries par))
    (hnoprops : alookup entries "properties" = Option.none)
    (hcnt : pyInt? cnt = some (vs.length : Int))
    (hvs : vs ≠ [])
    (hplain : ∀ c ∈ p.data, c ≠ '*' ∧ c ∉ regexMeta) :
    ∃ db' db'', putDeviceProperty db dev 1 ([p, cnt] ++ vs) = .ok db' ∧
      getDeviceProperty db' dev [p] =
        .ok ([dev, "1", p, Nat.repr vs.length] ++ vs, db'') := by
  have hplain0 : ∀ c ∈ p.data, c ≠ '*' ∧ c ≠ '.' := by
    intro c hc
    refine ⟨(hplain c hc).1, ?_⟩
    intro h
    exact (hplain c hc).2 (by rw [h]; decide)
  have hnlt : nid < db.heap.next := Heap.lt_next_of_find hwf hnode
  have hnnx : ¬nid = db.heap.next := Nat.ne_of_lt hnlt
  have hn0nid : ¬db.heap.next = nid := fun hh => hnnx hh.symm
  have f2nid : ((db.heap.alloc (Obj.node [] (some nid))).2).find nid =
      some (Obj.node entries par) := by
    rw [Heap.find_alloc_of_ne _ _ hnnx]
    exact hnode
  have f3nid : (((db.heap.alloc (Obj.node [] (some nid))).2).set nid
        (Obj.node (aset entries "properties" (.ref db.heap.next)) par)).find nid =
      some (Obj.node (aset entries "properties" (.ref db.heap.next)) par) :=
    Heap.find_set_self _ _ _ f2nid
  have f3n0 : (((db.heap.alloc (Obj.node [] (some nid))).2).set nid
        (Obj.node (aset entries "properties" (.ref db.heap.next)) par)).find
      db.heap.next = some (Obj.node [] (some nid)) := by
    rw [Heap.find_set_of_ne _ _ _ hn0nid]
    exact Heap.find_alloc_self _ _ hwf
  have gprops : alookup (aset entries "properties" (PyVal.ref db.heap.next))
      "properties" = some (PyVal.ref db.heap.next) := alookup_aset_self _ _ _
  cases vs with
  | nil => exact absurd rfl hvs
  | cons v vs' =>
    cases vs' with
    | nil =>
      have hput := putDeviceProperty_scalar db dev p cnt v nid entries par
        hwf hdev hnode hnoprops hcnt
      have hf1 : ((((db.heap.alloc (Obj.node [] (some nid))).2).set nid
          (Obj.node (aset entries "properties" (.ref db.heap.next)) par)).set
          db.heap.next (Obj.node [(p, PyVal.str v)] (some nid))).find nid =
          some (Obj.node (aset entries "properties" (.ref db.heap.next)) par) := by
        rw [Heap.find_set_of_ne _ _ _ hnnx]
        exact f3nid
      have hget := getDeviceProperty_scalar
        { db with heap := ((((db.heap.alloc (Obj.node [] (some nid))).2).set nid
            (Obj.node (aset entries "properties" (.ref db.heap.next)) par)).set
            db.heap.next (Obj.node [(p, PyVal.str v)] (some nid))) }
        dev p v nid db.heap.next
        (aset entries "properties" (.ref db.heap.next)) par (some nid)
        hdev hf1 gprops (Heap.find_set_self _ _ _ f3n0) hplain0
      refine ⟨_, ?_, hput, ?_⟩
      rotate_left
      rw [show ([v] : List String).length = 1 from rfl, show Nat.repr 1 = "1" by decide]
      exact hget
    | cons v2 vs'' =>
      have hne1 : ¬(((v :: v2 :: vs'').length : Int) = 1) := by
        simp
        omega
      have hnnx1 : ¬nid = db.heap.next + 1 := Nat.ne_of_lt (Nat.lt_succ_of_lt hnlt)
      have hn0nx1 : ¬db.heap.next = db.heap.next + 1 := Nat.ne_of_lt (Nat.lt_succ_self _)
      have hn1n0 : ¬db.heap.next + 1 = db.heap.next := Nat.succ_ne_self _
      have hwf3 : ((((db.heap.alloc (Obj.node [] (some nid))).2).set nid
            (Obj.node (aset entries "properties" (.ref db.heap.next)) par)).WF) :=
        Heap.WF.set (hwf.alloc _) _ _ (Nat.lt_succ_of_lt hnlt)
      have hput := putDeviceProperty_list db dev p cnt (v :: v2 :: vs'') nid
        entries par hwf hdev hnode hnoprops hcnt hne1
      have hf1 : (((((db.heap.alloc (Obj.node [] (some nid))).2).set nid
          (Obj.node (aset entries "properties" (.ref db.heap.next)) par)).alloc
          (Obj.rawList ((v :: v2 :: vs'').map PyVal.str))).2.set db.heap.next
          (Obj.node [(p, PyVal.ref (db.heap.next + 1))] (some nid))).find nid =
          some (Obj.node (aset entries "properties" (.ref db.heap.next)) par) := by
        rw [Heap.find_set_of_ne _ _ _ hnnx, Heap.find_alloc_of_ne _ _ hnnx1]
        exact f3nid
      have hf2 : (((((db.heap.alloc (Obj.node [] (some nid))).2).set nid
          (Obj.node (aset entries "properties" (.ref db.heap.next)) par)).alloc
          (Obj.rawList ((v :: v2 :: vs'').map PyVal.str))).2.set db.heap.next
          (Obj.node [(p, PyVal.ref (db.heap.next + 1))] (some nid))).find
          db.heap.next =
          some (Obj.node [(p, PyVal.ref (db.heap.next + 1))] (some nid)) := by
        have hf2pre : (((((db.heap.alloc (Obj.node [] (some nid))).2).set nid
            (Obj.node (aset entries "properties" (.ref db.heap.next)) par)).alloc
            (Obj.rawList ((v :: v2 :: vs'').map PyVal.str))).2).find db.heap.next =
            some (Obj.node [] (some nid)) := by
          rw [Heap.find_alloc_of_ne _ _ hn0nx1]
          exact f3n0
        exact Heap.find_set_self _ _ _ hf2pre
      have hf3 : (((((db.heap.alloc (Obj.node [] (some nid))).2).set nid
          (Obj.node (aset entries "properties" (.ref db.heap.next)) par)).alloc
          (Obj.rawList ((v :: v2 :: vs'').map PyVal.str))).2.set db.heap.next
          (Obj.node [(p, PyVal.ref (db.heap.next + 1))] (some nid))).find
          (db.heap.next + 1) =
          some (Obj.rawList ((v :: v2 :: vs'').map PyVal.str)) := by
        rw [Heap.find_set_of_ne _ _ _ hn1n0]
        exact Heap.find_alloc_self _ _ hwf3
      have hget := getDeviceProperty_list
        { db with heap := (((((db.heap.alloc (Obj.node [] (some nid))).2).set nid
            (Obj.node (aset entries "properties" (.ref db.heap.next)) par)).alloc
            (Obj.rawList ((v :: v2 :: vs'').map PyVal.str))).2.set db.heap.next
            (Obj.node [(p, PyVal.ref (db.heap.next + 1))] (some nid))) }
        dev p (v :: v2 :: vs'') nid db.heap.next (db.heap.next + 1)
        (aset entries "properties" (.ref db.heap.next)) par (some nid)
        hdev hf1 gprops hf2 hf3 hn1n0
        (Nat.ne_of_lt (Nat.lt_succ_self _)) hplain0
      exact ⟨_, _, hput, hget⟩

/-- A device node with no `properties` key, for the round-trip witness. -/
def roundTripDB : DB :=
  { emptyDB with
    heap := ⟨[(0, Obj.node [("tango_name", PyVal.str "a/b/c")] Option.none)], 1⟩
    tango2node := [("a/b/c", 0)] }

/-- Witness for `put_get_device_property_roundtrip`: storing the scalar
property `p1 = "v1"` on device `a/b/c` and reading it back yields the bag
`["a/b/c", "1", "p1", "1", "v1"]`. -/
theorem put_get_device_property_roundtrip_witness :
    ∃ db' db'',
      putDeviceProperty roundTripDB "a/b/c" 1 ["p1", "1", "v1"] = .ok db' ∧
      getDeviceProperty db' "a/b/c" ["p1"] =
        .ok (["a/b/c", "1", "p1", Nat.repr 1, "v1"], db'') :=
  put_get_device_property_roundtrip roundTripDB "a/b/c" "p1" "1" ["v1"] 0
    [("tango_name", PyVal.str "a/b/c")] Option.none (by decide) rfl rfl rfl rfl
    (by decide) (by decide)

end PyTangoDB
